import Mathlib

/-!
# DegenScope dashboard (`dashboard/src/App.jsx`)

A shallow embedding of the single React component of the repository: its
view state, the two asynchronous functions `fetchHistory` and `analyze`, the
event handlers wired in the JSX, and the table lookups used while rendering.

Asynchronous functions are split at their `await`: the part that runs when the
function is called (up to the `fetch`) and the continuation that runs when the
request settles.  The outcome of a request is an input of the continuation.
-/

namespace DegenScope

/-! ## Values -/

/-- Value produced by `res.json()`.  Numbers are restricted to integers, and an
object is the list of its own properties (keys distinct, as in a parsed
object). -/
inductive Json where
  | null
  | bool (b : Bool)
  | num (n : Int)
  | str (s : String)
  | arr (xs : List Json)
  | obj (kvs : List (String × Json))
  deriving Repr

/-- Own property `j[k]` of a parsed value; `none` is `undefined`.  Only used
with keys that `Object.prototype`, `Array.prototype` and `String.prototype` do
not define. -/
def Json.prop : Json → String → Option Json
  | .obj kvs, k => kvs.lookup k
  | _, _ => none

/-! ## `String.prototype.trim` -/

/-- ECMAScript `WhiteSpace` and `LineTerminator` code points, the ones
`String.prototype.trim` strips: TAB, LF, VT, FF, CR, SP, NBSP, U+1680,
U+2000..U+200A, U+2028, U+2029, U+202F, U+205F, U+3000, U+FEFF. -/
def isJsWhitespace (c : Char) : Bool :=
  let n := c.toNat
  n == 0x09 || n == 0x0A || n == 0x0B || n == 0x0C || n == 0x0D || n == 0x20 ||
  n == 0xA0 || n == 0x1680 || (0x2000 ≤ n && n ≤ 0x200A) || n == 0x2028 ||
  n == 0x2029 || n == 0x202F || n == 0x205F || n == 0x3000 || n == 0xFEFF

/-- Characters left after stripping leading and trailing whitespace. -/
def trimChars (cs : List Char) : List Char :=
  ((cs.dropWhile isJsWhitespace).reverse.dropWhile isJsWhitespace).reverse

/-- Model of `s.trim()`. -/
def trim (s : String) : String := String.mk (trimChars s.data)

/-! ## Network -/

/-- Arguments of one `fetch` call.  `body` is the value handed to
`JSON.stringify`, when there is one. -/
structure Request where
  method : String
  url : String
  headers : List (String × String)
  body : Option Json

/-- Request of `fetchHistory` (line 24): a plain `fetch(url)`, hence a GET. -/
def historyRequest (API_URL : String) : Request :=
  { method := "GET", url := API_URL ++ "/api/history?limit=10", headers := [], body := none }

/-- Request of `analyze` (lines 33-37). -/
def analyzeRequest (API_URL address chain : String) : Request :=
  { method := "POST"
    url := API_URL ++ "/api/analyze"
    headers := [("Content-Type", "application/json")]
    body := some (.obj [("contract_address", .str (trim address)), ("chain", .str chain)]) }

/-- Whether a request goes to the analysis endpoint. -/
def Request.isAnalyze (API_URL : String) (r : Request) : Bool :=
  r.url == API_URL ++ "/api/analyze"

/-- Whether a request goes to the history endpoint. -/
def Request.isHistory (API_URL : String) (r : Request) : Bool :=
  r.url == API_URL ++ "/api/history?limit=10"

/-- How an `await fetch(...)` followed by `await res.json()` can end.
`rejected m`: the `fetch` promise rejects with an error whose message is `m`.
`response status body`: a response with that HTTP status arrives; `body` is
what `res.json()` would give, either the parsed value or the message of the
error it rejects with. -/
inductive Fetched where
  | rejected (message : String)
  | response (status : Nat) (body : Except String Json)

/-- Property `res.ok`: the status is in the range 200-299. -/
def statusOk (status : Nat) : Bool := 200 ≤ status && status ≤ 299

/-! ## View state (lines 13-18) -/

/-- The six `useState` cells of `App`.  `result` holds `Json.null` for
`null`; `error` holds `none` for `null`. -/
structure ViewState where
  address : String
  chain : String
  result : Json
  loading : Bool
  error : Option String
  history : Json

/-- Initial values given to `useState`. -/
def ViewState.initial : ViewState :=
  { address := "", chain := "ethereum", result := .null, loading := false,
    error := none, history := .arr [] }

/-! ## `fetchHistory` (lines 22-27) -/

/-- Continuation of `fetchHistory` once its request has settled: the parsed
body is stored whatever the status; a rejection of `fetch` or of `res.json()`
is caught by the empty `catch`. -/
def fetchHistorySettle (o : Fetched) (s : ViewState) : ViewState :=
  match o with
  | .rejected _ => s
  | .response _ (.error _) => s
  | .response _ (.ok data) => { s with history := data }

/-! ## `analyze` (lines 29-44) -/

/-- Message of the error thrown at line 38. -/
def analysisErrorMessage : String := "Errore durante l\x27analisi"

/-- First part of `analyze`, up to the `fetch`: `none` when the guard of line
30 returns, otherwise the state after line 31 and the request of line 33. -/
def analyzeDispatch (API_URL : String) (s : ViewState) : Option (ViewState × Request) :=
  if trim s.address == "" then none
  else some ({ s with loading := true, error := none, result := .null },
             analyzeRequest API_URL s.address s.chain)

/-- Continuation of `analyze` once its request has settled (lines 38-43),
run on the state current at that moment.  Returns the new state and the
requests issued (the `fetchHistory()` of line 41). -/
def analyzeSettle (API_URL : String) (o : Fetched) (s : ViewState) : ViewState × List Request :=
  match o with
  | .rejected m => ({ s with error := some m, loading := false }, [])
  | .response status body =>
    if statusOk status then
      match body with
      | .error m => ({ s with error := some m, loading := false }, [])
      | .ok data => ({ s with result := data, loading := false }, [historyRequest API_URL])
    else ({ s with error := some analysisErrorMessage, loading := false }, [])

/-- One whole invocation of `analyze` with nothing else happening before its
request settles with outcome `o`: final state and the requests issued, in
order. -/
def analyze (API_URL : String) (s : ViewState) (o : Fetched) : ViewState × List Request :=
  match analyzeDispatch API_URL s with
  | none => (s, [])
  | some (s1, req) =>
    let r := analyzeSettle API_URL o s1
    (r.1, req :: r.2)

/-- An analysis attempt succeeds when the response has a 2xx status and its
body parses. -/
def Fetched.succeeded : Fetched → Bool
  | .response status (.ok _) => statusOk status
  | _ => false

/-! ## The component as an event-driven system -/

/-- Values of the four `<option>` elements of the chain selector (lines
65-68). -/
inductive Chain where
  | ethereum
  | bsc
  | polygon
  | base
  deriving DecidableEq, Repr

/-- Attribute `value` of an option. -/
def Chain.value : Chain → String
  | .ethereum => "ethereum"
  | .bsc => "bsc"
  | .polygon => "polygon"
  | .base => "base"

/-- The mounted component together with its environment: the view state, how
many requests of each kind have been issued and have not settled yet, and
every request issued so far (oldest first).  The `address` cell normally holds
a string, `view.address`.  Line 128 can also store an array in it, when the
`contract_address` of a history entry is one: `addressArray` is then that
array and `view.address` is not read. -/
structure Sys where
  view : ViewState
  analysesInFlight : Nat
  historiesInFlight : Nat
  sent : List Request
  addressArray : Option (List Json) := none

/-- State right after mounting: the effect of line 20 has called
`fetchHistory`. -/
def Sys.mounted (API_URL : String) : Sys :=
  { view := ViewState.initial, analysesInFlight := 0, historiesInFlight := 1,
    sent := [historyRequest API_URL] }

/-- A handler calls `analyze()`: the part before the `await` runs at once.
When the `address` cell holds an array, `address.trim` is not a function and
line 30 throws before any effect. -/
def Sys.callAnalyze (API_URL : String) (σ : Sys) : Sys :=
  match σ.addressArray with
  | some _ => σ
  | none =>
    match analyzeDispatch API_URL σ.view with
    | none => σ
    | some (v, req) =>
      { σ with view := v, analysesInFlight := σ.analysesInFlight + 1, sent := σ.sent ++ [req] }

/-- What can happen to the mounted component. -/
inductive Event where
  /-- The `onChange` of the address input (line 60). -/
  | editAddress (value : String)
  /-- The `onChange` of the chain selector (line 63). -/
  | changeChain (c : Chain)
  /-- A click on the scan button (line 70). -/
  | clickScan
  /-- The `onKeyDown` of the address input (line 60) with `e.key = key`. -/
  | keyDown (key : String)
  /-- A click on the history row of index `i` (line 128). -/
  | clickHistoryRow (i : Nat)
  /-- The request of an `analyze` call in flight settles. -/
  | analysisSettled (o : Fetched)
  /-- The request of a `fetchHistory` call in flight settles. -/
  | historySettled (o : Fetched)

/-- One event.  `none` when the event cannot happen in that state: a
settlement with no request in flight, or a click on a history row that is not
there (no such entry, or an entry whose `contract_address` is neither a
string nor an array, on which the `slice` of line 132 throws).  A click on the
scan button while it is `disabled` runs no handler.  A settlement runs the
continuation on the current state; the continuations only call setters.
Whether the current state renders without throwing is not tracked here. -/
def step (API_URL : String) (σ : Sys) : Event → Option Sys
  | .editAddress v =>
    some { σ with view := { σ.view with address := v }, addressArray := none }
  | .changeChain c => some { σ with view := { σ.view with chain := c.value } }
  | .clickScan => if σ.view.loading then some σ else some (σ.callAnalyze API_URL)
  | .keyDown key => if key == "Enter" then some (σ.callAnalyze API_URL) else some σ
  | .clickHistoryRow i =>
    match σ.view.history with
    | .arr hs =>
      match hs.get? i with
      | some h =>
        match h.prop "contract_address" with
        | some (.str a) =>
          some { σ with view := { σ.view with address := a }, addressArray := none }
        | some (.arr xs) => some { σ with addressArray := some xs }
        | _ => none
      | none => none
    | _ => none
  | .analysisSettled o =>
    if σ.analysesInFlight = 0 then none
    else
      let r := analyzeSettle API_URL o σ.view
      some { σ with view := r.1, analysesInFlight := σ.analysesInFlight - 1,
                    historiesInFlight := σ.historiesInFlight + r.2.length,
                    sent := σ.sent ++ r.2 }
  | .historySettled o =>
    if σ.historiesInFlight = 0 then none
    else some { σ with view := fetchHistorySettle o σ.view,
                       historiesInFlight := σ.historiesInFlight - 1 }

/-- A sequence of events, oldest first. -/
def run (API_URL : String) : Sys → List Event → Option Sys
  | σ, [] => some σ
  | σ, e :: es =>
    match step API_URL σ e with
    | some σ1 => run API_URL σ1 es
    | none => none

/-- States the mounted component can be in. -/
def Reachable (API_URL : String) (σ : Sys) : Prop :=
  ∃ es, run API_URL (Sys.mounted API_URL) es = some σ

/-! ## Rendering (lines 46-139)

Rendering can throw, and a few conversions are left out of the embedding
(numbers formatted as floating point, arrays and objects converted to
strings); both are explicit outcomes. -/

/-- Why a render produced no output. -/
inductive Failure where
  /-- The JavaScript throws: the component does not render. -/
  | thrown
  /-- The embedding does not cover this input. -/
  | unmodelled
  deriving DecidableEq, Repr

/-- Result of `table[key]` on an object literal, whose prototype is
`Object.prototype`: an own property, a built-in inherited from the prototype,
or `undefined`. -/
inductive Lookup (α : Type) where
  | own (a : α)
  | inherited (key : String)
  | undefined
  deriving DecidableEq, Repr

/-- Property names every object inherits from `Object.prototype`; each is
bound to a function, or to the prototype object itself for `__proto__`, hence
to a truthy value. -/
def objectPrototypeKeys : List String :=
  ["constructor", "hasOwnProperty", "isPrototypeOf", "propertyIsEnumerable",
   "toLocaleString", "toString", "valueOf", "__proto__", "__defineGetter__",
   "__defineSetter__", "__lookupGetter__", "__lookupSetter__"]

/-- Model of `table[key]` for an object literal `table`. -/
def lookupIn {α : Type} (table : List (String × α)) (key : String) : Lookup α :=
  match table.lookup key with
  | some a => .own a
  | none => if objectPrototypeKeys.contains key then .inherited key else .undefined

/-- Conversion of a value to a property key (`none` is `undefined`).  The
conversion of numbers, arrays and objects is not modelled. -/
def propertyKey : Option Json → Except Failure String
  | none => .ok "undefined"
  | some .null => .ok "null"
  | some (.bool b) => .ok (if b then "true" else "false")
  | some (.str s) => .ok s
  | some (.num _) => .error .unmodelled
  | some (.arr _) => .error .unmodelled
  | some (.obj _) => .error .unmodelled

/-- Truthiness of a value (`none` is `undefined`). -/
def truthy : Option Json → Bool
  | none => false
  | some .null => false
  | some (.bool b) => b
  | some (.num n) => n != 0
  | some (.str s) => s != ""
  | some (.arr _) => true
  | some (.obj _) => true

/-- Model of `v?.k`. -/
def optProp (v : Option Json) (k : String) : Option Json :=
  match v with
  | none => none
  | some .null => none
  | some j => j.prop k

/-- A value placed between braces inside an element.  React throws on a
plain object; arrays of children are not modelled. -/
def reactChild : Option Json → Except Failure (Option Json)
  | some (.obj _) => .error .thrown
  | some (.arr _) => .error .unmodelled
  | v => .ok v

/-- One entry of `RISK`. -/
structure RiskEntry where
  color : String
  bg : String
  label : String
  deriving DecidableEq, Repr

/-- Entry `RISK.MODERATE` (line 6). -/
def RISK_MODERATE : RiskEntry := { color := "#f59e0b", bg := "#1c1002", label := "MODERATO" }

/-- Table `RISK` (lines 4-9). -/
def RISK : List (String × RiskEntry) :=
  [("SAFE", { color := "#22c55e", bg := "#052e16", label := "SICURO" }),
   ("MODERATE", RISK_MODERATE),
   ("RISKY", { color := "#f97316", bg := "#1c0a02", label := "RISCHIOSO" }),
   ("DANGER", { color := "#ef4444", bg := "#1c0202", label := "PERICOLO" })]

/-- Table `FLAG_COLORS` (line 10). -/
def FLAG_COLORS : List (String × String) :=
  [("critical", "#ef4444"), ("high", "#f97316"), ("medium", "#f59e0b")]

/-- Value of `RISK[x] || RISK.MODERATE`: an entry of the table, or a built-in
inherited from `Object.prototype` (truthy, so the fallback is not taken). -/
inductive RiskValue where
  | entry (e : RiskEntry)
  | native (key : String)
  deriving DecidableEq, Repr

/-- Property `risk.color`; `none` is `undefined`. -/
def RiskValue.color : RiskValue → Option String
  | .entry e => some e.color
  | .native _ => none

/-- Property `risk.bg`; `none` is `undefined`. -/
def RiskValue.bg : RiskValue → Option String
  | .entry e => some e.bg
  | .native _ => none

/-- Property `risk.label`; `none` is `undefined`. -/
def RiskValue.label : RiskValue → Option String
  | .entry e => some e.label
  | .native _ => none

/-- The lookup `RISK[risk_level] || RISK.MODERATE` of lines 46 and 126. -/
def riskOf (risk_level : Option Json) : Except Failure RiskValue :=
  match propertyKey risk_level with
  | .error f => .error f
  | .ok k =>
    match lookupIn RISK k with
    | .own e => .ok (.entry e)
    | .inherited key => .ok (.native key)
    | .undefined => .ok (.entry RISK_MODERATE)

/-- The lookup `FLAG_COLORS[flag.type]` of line 109. -/
def flagColor (type : Option Json) : Except Failure (Lookup String) :=
  match propertyKey type with
  | .error f => .error f
  | .ok k => .ok (lookupIn FLAG_COLORS k)

/-- Text a template literal gives for a looked-up colour.  The text of a
built-in function depends on the engine and is not represented. -/
def Lookup.text : Lookup String → Option String
  | .own s => some s
  | .undefined => some "undefined"
  | .inherited _ => none

/-- One flag row (lines 109-111): its child `flag.msg` and the value
`FLAG_COLORS[flag.type]` that its three style properties are built from. -/
structure FlagRow where
  child : Option Json
  color : Lookup String
  deriving Repr

/-- Style property `border` of a row. -/
def FlagRow.border (r : FlagRow) : Option String :=
  r.color.text.map (fun c => "1px solid " ++ c ++ "44")

/-- Style property `background` of a row. -/
def FlagRow.background (r : FlagRow) : Option String :=
  r.color.text.map (fun c => c ++ "11")

/-- Callback of `result.flags.map` (lines 108-112). -/
def renderFlagRow (flag : Json) : Except Failure FlagRow :=
  match flag with
  | .null => .error .thrown
  | _ =>
    match flagColor (flag.prop "type") with
    | .error f => .error f
    | .ok c =>
      match reactChild (flag.prop "msg") with
      | .error f => .error f
      | .ok m => .ok { child := m, color := c }

/-- The call `result.flags.map(...)`, in order. -/
def renderFlagRows : List Json → Except Failure (List FlagRow)
  | [] => .ok []
  | f :: fs =>
    match renderFlagRow f with
    | .error e => .error e
    | .ok r =>
      match renderFlagRows fs with
      | .error e => .error e
      | .ok rs => .ok (r :: rs)

/-- What lines 105-118 show. -/
inductive FlagSection where
  /-- The list under the heading FLAGS RILEVATI. -/
  | rows (rs : List FlagRow)
  /-- The green line saying no critical flag was found. -/
  | noFlags
  deriving Repr

/-- Lines 105-118, from the value of `result.flags`. -/
def renderFlags : Option Json → Except Failure FlagSection
  | none => .ok .noFlags
  | some .null => .ok .noFlags
  | some (.bool _) => .ok .noFlags
  | some (.num _) => .ok .noFlags
  | some (.str s) => if s == "" then .ok .noFlags else .error .thrown
  | some (.obj kvs) =>
    match kvs.lookup "length" with
    | none => .ok .noFlags
    | some _ => .error .unmodelled
  | some (.arr fs) =>
    if fs.length > 0 then
      match renderFlagRows fs with
      | .error e => .error e
      | .ok rs => .ok (.rows rs)
    else .ok .noFlags

/-- Value of a stat tile: the text N/A, or a number formatted by `toFixed`
(floating point, digits not represented). -/
inductive Stat where
  | notAvailable
  | formatted
  | child (v : Json)
  deriving Repr

/-- Tiles Prezzo, Liquidità and Volume 24h (lines 93-95). -/
def numberTile (v : Option Json) : Except Failure Stat :=
  if truthy v then
    match v with
    | some (.arr _) => .error .unmodelled
    | some (.obj _) => .error .unmodelled
    | _ => .ok .formatted
  else .ok .notAvailable

/-- Tile DEX (line 96). -/
def dexTile (result : Json) : Except Failure Stat :=
  let v := optProp (optProp (result.prop "details") "market_data") "dex_id"
  if truthy v then
    match reactChild v with
    | .error f => .error f
    | .ok (some j) => .ok (.child j)
    | .ok none => .ok .notAvailable
  else .ok .notAvailable

/-- The result panel (lines 79-119). -/
structure Panel where
  name : Option Json
  symbol : Option Json
  address : Option Json
  risk : RiskValue
  score : Option Json
  price : Stat
  liquidity : Stat
  volume : Stat
  dex : Stat
  flags : FlagSection
  deriving Repr

/-- Lines 46 and 78-120: `none` when nothing is shown (`result` falsy). -/
def renderPanel (result : Json) : Except Failure (Option Panel) :=
  if truthy (some result) then do
    let risk ← riskOf (result.prop "risk_level")
    let name ← reactChild (result.prop "contract_name")
    let symbol ← reactChild (result.prop "symbol")
    let address ← reactChild (result.prop "contract_address")
    let score ← reactChild (result.prop "risk_score")
    let price ← numberTile (result.prop "price_usd")
    let liquidity ← numberTile (result.prop "liquidity_usd")
    let volume ← numberTile (result.prop "volume_24h")
    let dex ← dexTile result
    let flags ← renderFlags (result.prop "flags")
    pure (some { name, symbol, address, risk, score, price, liquidity, volume, dex, flags })
  else pure none

/-- One history row (lines 126-136): the symbol shown, the score and the risk
styling.  The abbreviated address is not represented. -/
structure HistoryRow where
  symbol : Json
  score : Option Json
  risk : RiskValue
  deriving Repr

/-- Value of `h.symbol || "???"` (line 131). -/
def symbolOrUnknown (h : Json) : Json :=
  match h.prop "symbol" with
  | some v => if truthy (some v) then v else .str "???"
  | none => .str "???"

/-- Callback of `history.map` (lines 125-137).  The call
`h.contract_address.slice(0, 12)` throws unless the address is a string or an
array. -/
def renderHistoryRow (h : Json) : Except Failure HistoryRow :=
  match h with
  | .null => .error .thrown
  | _ =>
    match riskOf (h.prop "risk_level") with
    | .error f => .error f
    | .ok rc =>
      match h.prop "contract_address" with
      | some (.str _) =>
        match reactChild (some (symbolOrUnknown h)) with
        | .error f => .error f
        | .ok _ =>
          match reactChild (h.prop "risk_score") with
          | .error f => .error f
          | .ok score => .ok { symbol := symbolOrUnknown h, score := score, risk := rc }
      | some (.arr _) => .error .unmodelled
      | _ => .error .thrown

/-- A flag as the response carries it: an object whose `type` and `msg` are
strings (`type` need not be one of the three keys of `FLAG_COLORS`). -/
def Json.isFlagRecord : Json → Bool
  | .obj kvs =>
    (match kvs.lookup "type" with
      | some (.str _) => true
      | _ => false) &&
    (match kvs.lookup "msg" with
      | some (.str _) => true
      | _ => false)
  | _ => false

/-- The response of the worked example: DANGER, score 92, one critical flag. -/
def honeypotResult : Json :=
  .obj [("risk_level", .str "DANGER"), ("risk_score", .num 92),
        ("flags", .arr [.obj [("type", .str "critical"), ("msg", .str "Honeypot detected")]])]

/-- Row and rendered row agree: the row shows `flag.msg` and is coloured with
`FLAG_COLORS[flag.type]`. -/
def RowShows (flag : Json) (r : FlagRow) : Prop :=
  r.child = flag.prop "msg" ∧ flagColor (flag.prop "type") = .ok r.color

/-- State reached after typing the address 0x1234 and clicking the scan
button: one analysis in flight, `loading` true. -/
def scanning : Sys :=
  { view := { ViewState.initial with address := "0x1234", loading := true }
    analysesInFlight := 1
    historiesInFlight := 1
    sent := [historyRequest "", analyzeRequest "" "0x1234" "ethereum"] }

/-- Events of a session in which Enter is pressed while a scan is loading; the
first analysis then succeeds and the second gets a 500. -/
def overlappingScans : List Event :=
  [.editAddress "0x1234", .clickScan, .keyDown "Enter",
   .analysisSettled (.response 200 (.ok honeypotResult)),
   .analysisSettled (.response 500 (.error "Unexpected token I"))]

/-- State the events `overlappingScans` end in: the result of the first
analysis and the error of the second are both set. -/
def bothSet : Sys :=
  { view := { ViewState.initial with
                address := "0x1234", result := honeypotResult,
                error := some analysisErrorMessage }
    analysesInFlight := 0
    historiesInFlight := 2
    sent := [historyRequest "", analyzeRequest "" "0x1234" "ethereum",
             analyzeRequest "" "0x1234" "ethereum", historyRequest ""] }

/-- Whether the event is the settlement of an analysis request. -/
def Event.isAnalysisSettled : Event → Bool
  | .analysisSettled _ => true
  | _ => false

/-- The events of the component, leaving out those that dispatch an analysis
while another one is in flight. -/
def stepNoOverlap (API_URL : String) (σ : Sys) (e : Event) : Option Sys :=
  match step API_URL σ e with
  | some σ1 =>
    if σ.analysesInFlight != 0 && σ1.analysesInFlight == σ.analysesInFlight + 1 then none
    else some σ1
  | none => none

/-- Sequences of events in which no two analyses are in flight together. -/
def runNoOverlap (API_URL : String) : Sys → List Event → Option Sys
  | σ, [] => some σ
  | σ, e :: es =>
    match stepNoOverlap API_URL σ e with
    | some σ1 => runNoOverlap API_URL σ1 es
    | none => none

/-- The request lifecycle with at most one analysis in flight: either loading
with one analysis in flight and both outcomes cleared, or idle with none in
flight and at most one outcome set. -/
def Lifecycle (σ : Sys) : Prop :=
  (σ.view.loading = true ∧ σ.analysesInFlight = 1 ∧
    σ.view.result = Json.null ∧ σ.view.error = none) ∨
  (σ.view.loading = false ∧ σ.analysesInFlight = 0 ∧
    (σ.view.result = Json.null ∨ σ.view.error = none))

/-- What an event other than a call of `analyze` or the settlement of an
analysis leaves alone. -/
def SameLifecycle (σ σ1 : Sys) : Prop :=
  σ1.view.loading = σ.view.loading ∧ σ1.view.result = σ.view.result ∧
  σ1.view.error = σ.view.error ∧ σ1.analysesInFlight = σ.analysesInFlight

/-- State with the address 0x1234 typed, surrounded by blanks, and nothing in
flight but the history request of the mount. -/
def addressTyped : Sys :=
  { view := { ViewState.initial with address := " 0x1234 " }
    analysesInFlight := 0
    historiesInFlight := 1
    sent := [historyRequest ""] }

/-- Events that happen while the analysis dispatched from `addressTyped` is in
flight: none settles it and none dispatches another analysis. -/
def whileLoading : List Event :=
  [.changeChain .bsc, .historySettled (.rejected "Failed to fetch"), .clickScan,
   .keyDown "a", .editAddress "0x12345"]

/-- State after `analyze` is called in `addressTyped` and the events
`whileLoading` have happened. -/
def stillLoading : Sys :=
  { view := { ViewState.initial with address := "0x12345", chain := "bsc", loading := true }
    analysesInFlight := 1
    historiesInFlight := 0
    sent := [historyRequest "", analyzeRequest "" " 0x1234 " "ethereum"] }

/-- Events of a session in which Enter is pressed while a scan is loading; the
first analysis then succeeds and the request of the second is rejected. -/
def offlineAfterOverlap : List Event :=
  [.editAddress "0x1234", .clickScan, .keyDown "Enter",
   .analysisSettled (.response 200 (.ok honeypotResult)),
   .analysisSettled (.rejected "Failed to fetch")]

/-- State the events `offlineAfterOverlap` end in: the second analysis has
failed and the result of the first is still set. -/
def staleResult : Sys :=
  { view := { ViewState.initial with
                address := "0x1234", result := honeypotResult,
                error := some "Failed to fetch" }
    analysesInFlight := 0
    historiesInFlight := 2
    sent := [historyRequest "", analyzeRequest "" "0x1234" "ethereum",
             analyzeRequest "" "0x1234" "ethereum", historyRequest ""] }

/-! ## Helper lemmas -/

theorem trim_eq_empty_of_whitespace (a : String)
    (h : ∀ c ∈ a.data, isJsWhitespace c = true) : trim a = "" := by
  have h1 : a.data.dropWhile isJsWhitespace = [] := by
    rw [List.dropWhile_eq_nil_iff]
    exact h
  unfold trim trimChars
  rw [h1]
  rfl

theorem append_ne_of_ne (p a b : String) (h : a ≠ b) : p ++ a ≠ p ++ b := by
  intro e
  apply h
  have e2 := congrArg String.data e
  simp only [String.data_append] at e2
  exact String.ext (List.append_cancel_left e2)

theorem analyzeDispatch_nonblank (API_URL : String) (s : ViewState)
    (haddr : trim s.address ≠ "") :
    analyzeDispatch API_URL s =
      some ({ s with loading := true, error := none, result := .null },
            analyzeRequest API_URL s.address s.chain) := by
  simp [analyzeDispatch, haddr]

theorem analyze_nonblank (API_URL : String) (s : ViewState) (o : Fetched)
    (haddr : trim s.address ≠ "") :
    analyze API_URL s o =
      ((analyzeSettle API_URL o
          { s with loading := true, error := none, result := .null }).1,
       analyzeRequest API_URL s.address s.chain ::
        (analyzeSettle API_URL o
          { s with loading := true, error := none, result := .null }).2) := by
  simp [analyze, analyzeDispatch_nonblank API_URL s haddr]

/-! ## `analyze`: outcome of one invocation -/

/-- C1, as stated, fails: with the address 0x1234, a response of status 200
whose body is the JSON text `null` parses, and `analyze` leaves `result`
null. -/
theorem analyze_success_null_body :
    trim ({ ViewState.initial with address := "0x1234" }).address ≠ "" ∧
    statusOk 200 = true ∧
    (analyze "" { ViewState.initial with address := "0x1234" }
      (.response 200 (.ok .null))).1.result = Json.null := by
  refine ⟨by decide, by decide, ?_⟩
  rfl

/-- An `analyze` call that runs alone, from any view state with a non-blank
address, and gets a 2xx response whose body parses to `data`: `result` is
`data`, `error` is null and `loading` is false. -/
theorem analyze_success_alone (API_URL : String) (s : ViewState) (status : Nat) (data : Json)
    (haddr : trim s.address ≠ "") (hok : statusOk status = true) :
    (analyze API_URL s (.response status (.ok data))).1.result = data ∧
    (analyze API_URL s (.response status (.ok data))).1.error = none ∧
    (analyze API_URL s (.response status (.ok data))).1.loading = false := by
  simp [analyze, analyzeDispatch, analyzeSettle, haddr, hok]

/-- An `analyze` call that runs alone, from any view state with a non-blank
address, and fails: `result` is null, `loading` is false and `error` is a
string, the fixed message of line 38 for a non-2xx response and otherwise the
message of the caught error. -/
theorem analyze_failure_alone (API_URL : String) (s : ViewState) (o : Fetched)
    (haddr : trim s.address ≠ "") (hfail : o.succeeded = false) :
    (analyze API_URL s o).1.result = Json.null ∧
    (analyze API_URL s o).1.loading = false ∧
    (∃ m, (analyze API_URL s o).1.error = some m) ∧
    (∀ m, o = .rejected m → (analyze API_URL s o).1.error = some m) ∧
    (∀ status body, o = .response status body → statusOk status = false →
      (analyze API_URL s o).1.error = some analysisErrorMessage) ∧
    (∀ status m, o = .response status (.error m) → statusOk status = true →
      (analyze API_URL s o).1.error = some m) ∧
    analysisErrorMessage ≠ "" := by
  have hne : analysisErrorMessage ≠ "" := by decide
  rw [analyze_nonblank API_URL s o haddr]
  cases o with
  | rejected m =>
    refine ⟨rfl, rfl, ⟨m, rfl⟩, ?_, ?_, ?_, hne⟩
    · intro m1 h; cases h; rfl
    · intro st b h; cases h
    · intro st m1 h; cases h
  | response status body =>
    cases hst : statusOk status with
    | false =>
      have e : analyzeSettle API_URL (.response status body)
          { s with loading := true, error := none, result := .null }
          = ({ s with loading := false, error := some analysisErrorMessage, result := .null },
             []) := by
        simp [analyzeSettle, hst]
      rw [e]
      refine ⟨rfl, rfl, ⟨_, rfl⟩, ?_, ?_, ?_, hne⟩
      · intro m1 h; cases h
      · intro st b _ _; rfl
      · intro st m1 h hs
        cases h
        rw [hst] at hs
        cases hs
    | true =>
      cases body with
      | error m =>
        have e : analyzeSettle API_URL (.response status (.error m))
            { s with loading := true, error := none, result := .null }
            = ({ s with loading := false, error := some m, result := .null }, []) := by
          simp [analyzeSettle, hst]
        rw [e]
        refine ⟨rfl, rfl, ⟨_, rfl⟩, ?_, ?_, ?_, hne⟩
        · intro m1 h; cases h
        · intro st b h hs
          cases h
          rw [hst] at hs
          cases hs
        · intro st m1 h _; cases h; rfl
      | ok data => simp [Fetched.succeeded, hst] at hfail

/-- C4: for every address that is empty or made of whitespace only, in every
view state, `analyze` returns at its guard: it issues no request at all and
leaves the whole state, `loading`, `result` and `error` included,
unchanged. -/
theorem analyze_blank_noop (API_URL : String) (s : ViewState) (a : String) (o : Fetched)
    (hblank : ∀ c ∈ a.data, isJsWhitespace c = true) :
    analyzeDispatch API_URL { s with address := a } = none ∧
    (analyze API_URL { s with address := a } o).2 = [] ∧
    (analyze API_URL { s with address := a } o).1 = { s with address := a } ∧
    (analyze API_URL { s with address := a } o).1.loading = s.loading ∧
    (analyze API_URL { s with address := a } o).1.result = s.result ∧
    (analyze API_URL { s with address := a } o).1.error = s.error := by
  have h := trim_eq_empty_of_whitespace a hblank
  simp [analyze, analyzeDispatch, h]

theorem analyze_blank_noop_witness :
    analyzeDispatch "" { ViewState.initial with address := " \t\n " } = none ∧
    (analyze "" { ViewState.initial with address := " \t\n " } (.response 200 (.ok .null))).2
      = [] :=
  have h := analyze_blank_noop "" ViewState.initial " \t\n " (.response 200 (.ok .null))
    (by decide)
  ⟨h.1, h.2.1⟩

/-- C7: for every address that is non-blank after trimming and each of the
four chain values, `analyze` sends to the analysis endpoint a POST whose JSON
body has `contract_address` equal to the trimmed address and `chain` equal to
the selected value; it is the first request the call issues. -/
theorem analyze_request_body (API_URL : String) (s : ViewState) (c : Chain) (o : Fetched)
    (haddr : trim s.address ≠ "") (hchain : s.chain = c.value) :
    ∃ v req, analyzeDispatch API_URL s = some (v, req) ∧
      (analyze API_URL s o).2.head? = some req ∧
      req.method = "POST" ∧
      req.url = API_URL ++ "/api/analyze" ∧
      req.headers = [("Content-Type", "application/json")] ∧
      req.body = some (.obj [("contract_address", .str (trim s.address)),
                             ("chain", .str c.value)]) := by
  refine ⟨{ s with loading := true, error := none, result := .null },
    analyzeRequest API_URL s.address s.chain, ?_, ?_, rfl, rfl, rfl, ?_⟩
  · exact analyzeDispatch_nonblank API_URL s haddr
  · rw [analyze_nonblank API_URL s o haddr]; rfl
  · simp [analyzeRequest, hchain]

theorem analyze_request_body_witness :
    ∃ v req, analyzeDispatch "" { ViewState.initial with address := " 0x1234 ", chain := "bsc" }
        = some (v, req) ∧
      (analyze "" { ViewState.initial with address := " 0x1234 ", chain := "bsc" }
        (.rejected "offline")).2.head? = some req ∧
      req.method = "POST" ∧
      req.url = "" ++ "/api/analyze" ∧
      req.headers = [("Content-Type", "application/json")] ∧
      req.body = some (.obj [("contract_address", .str (trim " 0x1234 ")),
                             ("chain", .str Chain.bsc.value)]) :=
  analyze_request_body "" { ViewState.initial with address := " 0x1234 ", chain := "bsc" }
    Chain.bsc (.rejected "offline") (by decide) rfl

/-! ## History refresh -/

theorem isHistory_historyRequest (API_URL : String) :
    (historyRequest API_URL).isHistory API_URL = true := by
  simp [Request.isHistory, historyRequest]

theorem isHistory_analyzeRequest (API_URL a c : String) :
    (analyzeRequest API_URL a c).isHistory API_URL = false := by
  have h : API_URL ++ "/api/analyze" ≠ API_URL ++ "/api/history?limit=10" :=
    append_ne_of_ne API_URL _ _ (by decide)
  simp [Request.isHistory, analyzeRequest, h]

theorem analyzeSettle_requests (API_URL : String) (o : Fetched) (s : ViewState) :
    (analyzeSettle API_URL o s).2 = if o.succeeded then [historyRequest API_URL] else [] := by
  cases o with
  | rejected m => rfl
  | response status body =>
    cases hst : statusOk status <;> cases body <;>
      simp [analyzeSettle, Fetched.succeeded, hst]

/-- C8: an `analyze` call that dispatches (address non-blank) issues, before
its request settles, the analysis request only (no history request); once the
request has settled, its continuation issues exactly one history request when
the analysis succeeded (2xx status and parsed body) and none when it failed.
So the call issues one or zero history requests, after the analysis request. -/
theorem analyze_history_requests (API_URL : String) (s : ViewState) (o : Fetched)
    (haddr : trim s.address ≠ "") :
    ∃ v req, analyzeDispatch API_URL s = some (v, req) ∧
      req.isHistory API_URL = false ∧
      (analyzeSettle API_URL o v).2 = (if o.succeeded then [historyRequest API_URL] else []) ∧
      (analyze API_URL s o).2 =
        req :: (if o.succeeded then [historyRequest API_URL] else []) ∧
      ((analyze API_URL s o).2.filter (Request.isHistory API_URL)).length =
        (if o.succeeded then 1 else 0) := by
  refine ⟨_, _, analyzeDispatch_nonblank API_URL s haddr,
    isHistory_analyzeRequest API_URL _ _, analyzeSettle_requests API_URL o _, ?_, ?_⟩
  · rw [analyze_nonblank API_URL s o haddr, analyzeSettle_requests]
  · rw [analyze_nonblank API_URL s o haddr, analyzeSettle_requests]
    cases o.succeeded <;>
      simp [List.filter, isHistory_analyzeRequest, isHistory_historyRequest]

theorem analyze_history_requests_witness :
    ((analyze "" { ViewState.initial with address := "0x1234" }
        (.response 200 (.ok honeypotResult))).2.filter (Request.isHistory "")).length = 1 ∧
    ((analyze "" { ViewState.initial with address := "0x1234" }
        (.response 404 (.ok honeypotResult))).2.filter (Request.isHistory "")).length = 0 :=
  ⟨(analyze_history_requests "" { ViewState.initial with address := "0x1234" }
      (.response 200 (.ok honeypotResult)) (by decide)).choose_spec.choose_spec.2.2.2.2,
   (analyze_history_requests "" { ViewState.initial with address := "0x1234" }
      (.response 404 (.ok honeypotResult)) (by decide)).choose_spec.choose_spec.2.2.2.2⟩

/-- A rejected `fetch` leaves the state as it is. -/
theorem fetchHistorySettle_rejected (m : String) (s : ViewState) :
    fetchHistorySettle (.rejected m) s = s := rfl

/-- A body that does not parse leaves the state as it is, whatever the
status. -/
theorem fetchHistorySettle_unparsable (status : Nat) (m : String) (s : ViewState) :
    fetchHistorySettle (.response status (.error m)) s = s := rfl

/-- A body that parses replaces the history, whatever the status; nothing
else changes. -/
theorem fetchHistorySettle_parsed (status : Nat) (data : Json) (s : ViewState) :
    fetchHistorySettle (.response status (.ok data)) s = { s with history := data } := rfl

/-- C9 fails on the code: `fetchHistory` never reads `res.ok`.  With a stale
history of one entry, a response of status 500 whose body parses (here the
JSON object reporting the server error) is stored as the new history. -/
theorem fetchHistory_stores_error_body :
    statusOk 500 = false ∧
    (fetchHistorySettle
      (.response 500 (.ok (.obj [("detail", .str "Internal Server Error")])))
      { ViewState.initial with
        history := .arr [.obj [("contract_address", .str "0xabc"), ("risk_score", .num 10)]] }
      ).history = .obj [("detail", .str "Internal Server Error")] ∧
    (fetchHistorySettle
      (.response 500 (.ok (.obj [("detail", .str "Internal Server Error")])))
      { ViewState.initial with
        history := .arr [.obj [("contract_address", .str "0xabc"), ("risk_score", .num 10)]] }
      ).history ≠ .arr [.obj [("contract_address", .str "0xabc"), ("risk_score", .num 10)]] := by
  refine ⟨by decide, rfl, ?_⟩
  simp [fetchHistorySettle]

/-! ## Triggers while loading -/

/-- A click on the scan button while `loading` is true runs nothing: the
button is disabled. -/
theorem clickScan_while_loading (API_URL : String) (σ : Sys) (h : σ.view.loading = true) :
    step API_URL σ .clickScan = some σ := by
  simp [step, h]

/-- A key other than Enter runs nothing. -/
theorem keyDown_other (API_URL : String) (σ : Sys) (key : String) (h : key ≠ "Enter") :
    step API_URL σ (.keyDown key) = some σ := by
  simp [step, h]

/-- C5 fails on the code: the `onKeyDown` handler of line 60 calls `analyze`
without looking at `loading`.  After typing 0x1234 and clicking the scan
button, `loading` is true and one analysis is in flight; pressing Enter then
issues a second request to the analysis endpoint. -/
theorem enter_while_loading_dispatches :
    run "" (Sys.mounted "") [.editAddress "0x1234", .clickScan] = some scanning ∧
    scanning.view.loading = true ∧
    (step "" scanning (.keyDown "Enter")).map Sys.sent =
      some (scanning.sent ++ [analyzeRequest "" "0x1234" "ethereum"]) ∧
    (analyzeRequest "" "0x1234" "ethereum").isAnalyze "" = true ∧
    (step "" scanning (.keyDown "Enter")).map Sys.analysesInFlight = some 2 := by
  refine ⟨rfl, rfl, rfl, by decide, rfl⟩

/-! ## Invariant of the view state -/

/-- C3 fails on the code, through the defect of C5: the events
`overlappingScans` can happen from the mounted component (Enter pressed while
the first scan is loading starts a second analysis), and they end in a state
where `result` and `error` are both non-null. -/
theorem result_and_error_both_set :
    run "" (Sys.mounted "") overlappingScans = some bothSet ∧
    Reachable "" bothSet ∧
    bothSet.view.result ≠ Json.null ∧ bothSet.view.error ≠ none ∧
    bothSet.view.loading = false ∧ bothSet.analysesInFlight = 0 := by
  refine ⟨rfl, ⟨overlappingScans, rfl⟩, ?_, ?_, rfl, rfl⟩
  · simp [bothSet, honeypotResult]
  · simp [bothSet]

theorem callAnalyze_cases (API_URL : String) (σ : Sys) :
    σ.callAnalyze API_URL = σ ∨
    ((σ.callAnalyze API_URL).view.loading = true ∧
     (σ.callAnalyze API_URL).analysesInFlight = σ.analysesInFlight + 1 ∧
     (σ.callAnalyze API_URL).view.result = Json.null ∧
     (σ.callAnalyze API_URL).view.error = none) := by
  unfold Sys.callAnalyze analyzeDispatch
  cases σ.addressArray with
  | some xs => exact Or.inl rfl
  | none =>
    simp only
    split_ifs with h
    · exact Or.inl rfl
    · exact Or.inr ⟨rfl, rfl, rfl, rfl⟩

/-- With an array in the `address` cell, a call of `analyze` throws at line 30
and changes nothing. -/
theorem callAnalyze_array (API_URL : String) (σ : Sys) (xs : List Json)
    (h : σ.addressArray = some xs) : σ.callAnalyze API_URL = σ := by
  simp [Sys.callAnalyze, h]

theorem callAnalyze_dispatches (API_URL : String) (σ : Sys)
    (hstr : σ.addressArray = none) (haddr : trim σ.view.address ≠ "") :
    (σ.callAnalyze API_URL).view.loading = true ∧
    (σ.callAnalyze API_URL).analysesInFlight = σ.analysesInFlight + 1 ∧
    (σ.callAnalyze API_URL).view.result = Json.null ∧
    (σ.callAnalyze API_URL).view.error = none := by
  simp [Sys.callAnalyze, hstr, analyzeDispatch_nonblank API_URL σ.view haddr]

theorem analyzeSettle_loading (API_URL : String) (o : Fetched) (s : ViewState) :
    (analyzeSettle API_URL o s).1.loading = false := by
  cases o with
  | rejected m => rfl
  | response status body =>
    cases hst : statusOk status <;> cases body <;> simp [analyzeSettle, hst]

theorem analyzeSettle_outcome (API_URL : String) (o : Fetched) (s : ViewState) :
    ((analyzeSettle API_URL o s).1.result = s.result ∧
      (analyzeSettle API_URL o s).1.error ≠ none) ∨
    ((analyzeSettle API_URL o s).1.error = s.error) := by
  cases o with
  | rejected m => left; simp [analyzeSettle]
  | response status body =>
    cases hst : statusOk status <;> cases body <;> simp [analyzeSettle, hst]

theorem fetchHistorySettle_frame (o : Fetched) (s : ViewState) :
    (fetchHistorySettle o s).loading = s.loading ∧
    (fetchHistorySettle o s).result = s.result ∧
    (fetchHistorySettle o s).error = s.error := by
  cases o with
  | rejected m => exact ⟨rfl, rfl, rfl⟩
  | response status body => cases body <;> exact ⟨rfl, rfl, rfl⟩

theorem step_cases (API_URL : String) (σ σ1 : Sys) (e : Event)
    (hstep : step API_URL σ e = some σ1) :
    SameLifecycle σ σ1 ∨ σ1 = σ.callAnalyze API_URL ∨
    (∃ o, e = .analysisSettled o ∧ σ.analysesInFlight ≠ 0 ∧
      σ1.view = (analyzeSettle API_URL o σ.view).1 ∧
      σ1.analysesInFlight = σ.analysesInFlight - 1) := by
  cases e with
  | editAddress v =>
    simp only [step, Option.some.injEq] at hstep; subst hstep
    exact Or.inl ⟨rfl, rfl, rfl, rfl⟩
  | changeChain c =>
    simp only [step, Option.some.injEq] at hstep; subst hstep
    exact Or.inl ⟨rfl, rfl, rfl, rfl⟩
  | clickScan =>
    simp only [step] at hstep
    split_ifs at hstep with hl
    · simp only [Option.some.injEq] at hstep; subst hstep
      exact Or.inl ⟨rfl, rfl, rfl, rfl⟩
    · simp only [Option.some.injEq] at hstep; subst hstep
      exact Or.inr (Or.inl rfl)
  | keyDown key =>
    simp only [step] at hstep
    split_ifs at hstep with hk
    · simp only [Option.some.injEq] at hstep; subst hstep
      exact Or.inr (Or.inl rfl)
    · simp only [Option.some.injEq] at hstep; subst hstep
      exact Or.inl ⟨rfl, rfl, rfl, rfl⟩
  | clickHistoryRow i =>
    simp only [step] at hstep
    split at hstep
    · split at hstep
      · split at hstep
        · simp only [Option.some.injEq] at hstep; subst hstep
          exact Or.inl ⟨rfl, rfl, rfl, rfl⟩
        · simp only [Option.some.injEq] at hstep; subst hstep
          exact Or.inl ⟨rfl, rfl, rfl, rfl⟩
        · cases hstep
      · cases hstep
    · cases hstep
  | analysisSettled o =>
    simp only [step] at hstep
    split_ifs at hstep with h0
    simp only [Option.some.injEq] at hstep
    subst hstep
    exact Or.inr (Or.inr ⟨o, rfl, h0, rfl, rfl⟩)
  | historySettled o =>
    simp only [step] at hstep
    split_ifs at hstep with h0
    simp only [Option.some.injEq] at hstep
    subst hstep
    have hv := fetchHistorySettle_frame o σ.view
    exact Or.inl ⟨hv.1, hv.2.1, hv.2.2, rfl⟩

theorem step_loading_in_flight (API_URL : String) (σ σ1 : Sys) (e : Event)
    (hstep : step API_URL σ e = some σ1)
    (inv : σ.view.loading = true → 0 < σ.analysesInFlight) :
    σ1.view.loading = true → 0 < σ1.analysesInFlight := by
  rcases step_cases API_URL σ σ1 e hstep with ⟨h1, _, _, h4⟩ | h | ⟨o, _, _, hv, _⟩
  · rw [h1, h4]; exact inv
  · subst h
    rcases callAnalyze_cases API_URL σ with h | h
    · rw [h]; exact inv
    · intro _; omega
  · intro hl
    rw [hv, analyzeSettle_loading] at hl
    cases hl

theorem run_loading_in_flight (API_URL : String) (es : List Event) :
    ∀ σ σ1 : Sys, run API_URL σ es = some σ1 →
      (σ.view.loading = true → 0 < σ.analysesInFlight) →
      σ1.view.loading = true → 0 < σ1.analysesInFlight := by
  induction es with
  | nil =>
    intro σ σ1 h inv
    simp only [run, Option.some.injEq] at h
    subst h
    exact inv
  | cons e es ih =>
    intro σ σ1 h inv
    simp only [run] at h
    cases hs : step API_URL σ e with
    | none => rw [hs] at h; cases h
    | some σ2 =>
      rw [hs] at h
      exact ih σ2 σ1 h (step_loading_in_flight API_URL σ σ2 e hs inv)

/-- In every reachable state, `loading` is true only while an analysis request
has been dispatched and has not settled. -/
theorem loading_only_in_flight (API_URL : String) (σ : Sys) (h : Reachable API_URL σ) :
    σ.view.loading = true → 0 < σ.analysesInFlight := by
  obtain ⟨es, hes⟩ := h
  exact run_loading_in_flight API_URL es _ σ hes (by intro hl; cases hl)

theorem stepNoOverlap_some (API_URL : String) (σ σ1 : Sys) (e : Event)
    (hstep : stepNoOverlap API_URL σ e = some σ1) :
    step API_URL σ e = some σ1 ∧
    (σ.analysesInFlight = 0 ∨ σ1.analysesInFlight ≠ σ.analysesInFlight + 1) := by
  unfold stepNoOverlap at hstep
  cases hs : step API_URL σ e with
  | none => rw [hs] at hstep; cases hstep
  | some σ2 =>
    rw [hs] at hstep
    simp only at hstep
    split_ifs at hstep with hov
    simp only [Option.some.injEq] at hstep
    subst hstep
    refine ⟨rfl, ?_⟩
    by_cases h0 : σ.analysesInFlight = 0
    · exact Or.inl h0
    · right
      intro h1
      apply hov
      simp [h0, h1]

theorem step_lifecycle (API_URL : String) (σ σ1 : Sys) (e : Event)
    (hstep : stepNoOverlap API_URL σ e = some σ1) (inv : Lifecycle σ) : Lifecycle σ1 := by
  obtain ⟨hs, hno⟩ := stepNoOverlap_some API_URL σ σ1 e hstep
  rcases step_cases API_URL σ σ1 e hs with ⟨h1, h2, h3, h4⟩ | h | ⟨o, _, h0, hv, hn⟩
  · unfold Lifecycle at inv ⊢
    rw [h1, h2, h3, h4]
    exact inv
  · subst h
    rcases callAnalyze_cases API_URL σ with h | ⟨c1, c2, c3, c4⟩
    · rw [h]; exact inv
    · rcases hno with hz | hne
      · exact Or.inl ⟨c1, by omega, c3, c4⟩
      · exact absurd c2 hne
  · rcases inv with ⟨_, i1, hr, he⟩ | ⟨_, hz, _⟩
    · right
      refine ⟨by rw [hv]; exact analyzeSettle_loading API_URL o σ.view, by omega, ?_⟩
      rw [hv]
      rcases analyzeSettle_outcome API_URL o σ.view with ⟨hres, _⟩ | herr
      · left; rw [hres]; exact hr
      · right; rw [herr]; exact he
    · exact absurd hz h0

theorem step_in_flight_kept (API_URL : String) (σ σ1 : Sys) (e : Event)
    (hstep : step API_URL σ e = some σ1) (hq : e.isAnalysisSettled = false) :
    σ.analysesInFlight ≤ σ1.analysesInFlight := by
  rcases step_cases API_URL σ σ1 e hstep with ⟨_, _, _, h4⟩ | h | ⟨o, he, _, _, _⟩
  · omega
  · subst h
    rcases callAnalyze_cases API_URL σ with h | ⟨_, c2, _, _⟩
    · rw [h]
    · omega
  · subst he
    cases hq

theorem run_lifecycle (API_URL : String) (es : List Event) :
    ∀ σ σ1 : Sys, runNoOverlap API_URL σ es = some σ1 → Lifecycle σ → Lifecycle σ1 := by
  induction es with
  | nil =>
    intro σ σ1 h inv
    simp only [runNoOverlap, Option.some.injEq] at h
    subst h
    exact inv
  | cons e es ih =>
    intro σ σ1 h inv
    simp only [runNoOverlap] at h
    cases hs : stepNoOverlap API_URL σ e with
    | none => rw [hs] at h; cases h
    | some σ2 =>
      rw [hs] at h
      exact ih σ2 σ1 h (step_lifecycle API_URL σ σ2 e hs inv)

theorem run_in_flight_kept (API_URL : String) (es : List Event) :
    ∀ σ σ1 : Sys, runNoOverlap API_URL σ es = some σ1 →
      (∀ e ∈ es, e.isAnalysisSettled = false) →
      σ.analysesInFlight ≤ σ1.analysesInFlight := by
  induction es with
  | nil =>
    intro σ σ1 h _
    simp only [runNoOverlap, Option.some.injEq] at h
    subst h
    exact Nat.le_refl _
  | cons e es ih =>
    intro σ σ1 h hq
    simp only [runNoOverlap] at h
    cases hs : stepNoOverlap API_URL σ e with
    | none => rw [hs] at h; cases h
    | some σ2 =>
      rw [hs] at h
      have h1 := step_in_flight_kept API_URL σ σ2 e
        (stepNoOverlap_some API_URL σ σ2 e hs).1 (hq e (List.mem_cons_self e es))
      have h2 := ih σ2 σ1 h (fun x hx => hq x (List.mem_cons_of_mem e hx))
      omega

/-- An `analyze` call dispatched with no analysis in flight, followed by any
events that neither settle it nor dispatch another analysis: its request is
the one in flight, `loading` is true and `result` and `error` are still
cleared. -/
theorem in_flight_alone (API_URL : String) (σ σ2 : Sys) (es : List Event)
    (hstr : σ.addressArray = none) (haddr : trim σ.view.address ≠ "")
    (hidle : σ.analysesInFlight = 0)
    (hquiet : ∀ e ∈ es, e.isAnalysisSettled = false)
    (hrun : runNoOverlap API_URL (σ.callAnalyze API_URL) es = some σ2) :
    σ2.view.loading = true ∧ σ2.analysesInFlight = 1 ∧
    σ2.view.result = Json.null ∧ σ2.view.error = none := by
  obtain ⟨c1, c2, c3, c4⟩ := callAnalyze_dispatches API_URL σ hstr haddr
  have h0 : Lifecycle (σ.callAnalyze API_URL) := Or.inl ⟨c1, by omega, c3, c4⟩
  have hk := run_in_flight_kept API_URL es _ σ2 hrun hquiet
  rcases run_lifecycle API_URL es _ σ2 hrun h0 with h | ⟨_, hz, _⟩
  · exact h
  · omega

/-- When no analysis is dispatched while another one is in flight, every state
the mounted component reaches keeps the invariant of the view state: `result`
and `error` are not both set, and `loading` is true exactly while an analysis
request is in flight. -/
theorem invariant_without_overlap (API_URL : String) (es : List Event) (σ : Sys)
    (h : runNoOverlap API_URL (Sys.mounted API_URL) es = some σ) :
    ¬ (σ.view.result ≠ Json.null ∧ σ.view.error ≠ none) ∧
    (σ.view.loading = true ↔ 0 < σ.analysesInFlight) := by
  have h0 : Lifecycle (Sys.mounted API_URL) := Or.inr ⟨rfl, rfl, Or.inl rfl⟩
  rcases run_lifecycle API_URL es _ σ h h0 with ⟨hl, h1, hr, he⟩ | ⟨hl, hz, hx⟩
  · exact ⟨fun hh => hh.1 hr, by simp [hl, h1]⟩
  · refine ⟨fun hh => ?_, by simp [hl, hz]⟩
    rcases hx with hr | he
    · exact hh.1 hr
    · exact hh.2 he

/-! ## Settlement of an analysis that does not overlap another -/

theorem step_analysisSettled (API_URL : String) (σ : Sys) (o : Fetched)
    (h : σ.analysesInFlight ≠ 0) :
    ∃ σ3, step API_URL σ (.analysisSettled o) = some σ3 ∧
      σ3.view = (analyzeSettle API_URL o σ.view).1 ∧
      σ3.analysesInFlight = σ.analysesInFlight - 1 := by
  refine ⟨{ σ with view := (analyzeSettle API_URL o σ.view).1,
                   analysesInFlight := σ.analysesInFlight - 1,
                   historiesInFlight :=
                     σ.historiesInFlight + (analyzeSettle API_URL o σ.view).2.length,
                   sent := σ.sent ++ (analyzeSettle API_URL o σ.view).2 }, ?_, rfl, rfl⟩
  simp [step, h]

/-- C1 (amended): for every state whose address is non-blank after trimming
and where no analysis is in flight, after `analyze` is called and whatever
events follow that neither settle its request nor dispatch another analysis,
the request can settle, and when it settles with a 2xx status and a body that
parses to `data`, the state has `result` equal to `data` (hence non-null
exactly when the body is not the JSON value null), `error` null and `loading`
false. -/
theorem analyze_success (API_URL : String) (σ σ2 : Sys) (es : List Event)
    (status : Nat) (data : Json)
    (hstr : σ.addressArray = none) (haddr : trim σ.view.address ≠ "")
    (hidle : σ.analysesInFlight = 0)
    (hquiet : ∀ e ∈ es, e.isAnalysisSettled = false)
    (hrun : runNoOverlap API_URL (σ.callAnalyze API_URL) es = some σ2)
    (hok : statusOk status = true) :
    ∃ σ3, step API_URL σ2 (.analysisSettled (.response status (.ok data))) = some σ3 ∧
      σ3.view.result = data ∧
      (σ3.view.result ≠ Json.null ↔ data ≠ Json.null) ∧
      σ3.view.error = none ∧
      σ3.view.loading = false ∧
      σ3.analysesInFlight = 0 := by
  obtain ⟨_, h1, _, he⟩ := in_flight_alone API_URL σ σ2 es hstr haddr hidle hquiet hrun
  obtain ⟨σ3, hs, hv, hn⟩ := step_analysisSettled API_URL σ2
    (.response status (.ok data)) (by omega)
  refine ⟨σ3, hs, ?_, ?_, ?_, ?_, by omega⟩ <;>
    simp [hv, analyzeSettle, hok, he]

theorem analyze_success_witness :
    ∃ σ3, step "" stillLoading (.analysisSettled (.response 200 (.ok honeypotResult)))
        = some σ3 ∧
      σ3.view.result = honeypotResult ∧
      (σ3.view.result ≠ Json.null ↔ honeypotResult ≠ Json.null) ∧
      σ3.view.error = none ∧
      σ3.view.loading = false ∧
      σ3.analysesInFlight = 0 :=
  analyze_success "" addressTyped stillLoading whileLoading 200 honeypotResult
    rfl (by decide) rfl (by simp [whileLoading, Event.isAnalysisSettled]) rfl (by decide)

/-- A failed analysis that does not overlap another one: under the hypotheses
of `analyze_success`, when the request settles in failure the state has
`result` null, `loading` false and `error` set to a string, the fixed message
of line 38 for a non-2xx response and otherwise the message of the caught
error. -/
theorem analyze_failure_without_overlap (API_URL : String) (σ σ2 : Sys) (es : List Event)
    (o : Fetched)
    (hstr : σ.addressArray = none) (haddr : trim σ.view.address ≠ "")
    (hidle : σ.analysesInFlight = 0)
    (hquiet : ∀ e ∈ es, e.isAnalysisSettled = false)
    (hrun : runNoOverlap API_URL (σ.callAnalyze API_URL) es = some σ2)
    (hfail : o.succeeded = false) :
    ∃ σ3 m, step API_URL σ2 (.analysisSettled o) = some σ3 ∧
      σ3.view.result = Json.null ∧
      σ3.view.loading = false ∧
      σ3.view.error = some m ∧
      (∀ m1, o = .rejected m1 → m = m1) ∧
      (∀ status body, o = .response status body → statusOk status = false →
        m = analysisErrorMessage) ∧
      (∀ status m1, o = .response status (.error m1) → statusOk status = true → m = m1) := by
  obtain ⟨_, h1, hr, _⟩ := in_flight_alone API_URL σ σ2 es hstr haddr hidle hquiet hrun
  obtain ⟨σ3, hs, hv, _⟩ := step_analysisSettled API_URL σ2 o (by omega)
  cases o with
  | rejected m =>
    refine ⟨σ3, m, hs, ?_, ?_, ?_, ?_, ?_, ?_⟩
    · simp [hv, analyzeSettle, hr]
    · simp [hv, analyzeSettle]
    · simp [hv, analyzeSettle]
    · intro m1 h; cases h; rfl
    · intro st b h; cases h
    · intro st m1 h; cases h
  | response status body =>
    cases hst : statusOk status with
    | false =>
      refine ⟨σ3, analysisErrorMessage, hs, ?_, ?_, ?_, ?_, ?_, ?_⟩
      · simp [hv, analyzeSettle, hst, hr]
      · simp [hv, analyzeSettle, hst]
      · simp [hv, analyzeSettle, hst]
      · intro m1 h; cases h
      · intro st b _ _; rfl
      · intro st m1 h hq
        cases h
        rw [hst] at hq
        cases hq
    | true =>
      cases body with
      | error m =>
        refine ⟨σ3, m, hs, ?_, ?_, ?_, ?_, ?_, ?_⟩
        · simp [hv, analyzeSettle, hst, hr]
        · simp [hv, analyzeSettle, hst]
        · simp [hv, analyzeSettle, hst]
        · intro m1 h; cases h
        · intro st b h hq
          cases h
          rw [hst] at hq
          cases hq
        · intro st m1 h _; cases h; rfl
      | ok data => simp [Fetched.succeeded, hst] at hfail

/-- C2 fails on the code, through the defect of C5: Enter pressed while the
first scan is loading starts a second analysis from a state whose address is
0x1234; the first analysis succeeds, then the request of the second is
rejected, and after this failed attempt has settled `result` still holds the
result of the first analysis instead of null. -/
theorem failed_analysis_keeps_result :
    (Fetched.rejected "Failed to fetch").succeeded = false ∧
    run "" (Sys.mounted "") offlineAfterOverlap = some staleResult ∧
    staleResult.view.result = honeypotResult ∧
    staleResult.view.result ≠ Json.null ∧
    staleResult.view.error = some "Failed to fetch" ∧
    staleResult.view.loading = false ∧
    staleResult.analysesInFlight = 0 := by
  refine ⟨rfl, rfl, rfl, ?_, rfl, rfl, rfl⟩
  simp [staleResult, honeypotResult]

/-! ## Risk styling -/

/-- A missing `risk_level` is styled as MODERATE. -/
theorem riskOf_missing : riskOf none = .ok (.entry RISK_MODERATE) := rfl

/-- A `risk_level` string that is neither a key of `RISK` nor a property name
of `Object.prototype` is styled as MODERATE. -/
theorem riskOf_unknown (k : String)
    (h1 : k ≠ "SAFE") (h2 : k ≠ "MODERATE") (h3 : k ≠ "RISKY") (h4 : k ≠ "DANGER")
    (hp : k ∉ objectPrototypeKeys) :
    riskOf (some (.str k)) = .ok (.entry RISK_MODERATE) := by
  have b1 : (k == "SAFE") = false := by simpa using h1
  have b2 : (k == "MODERATE") = false := by simpa using h2
  have b3 : (k == "RISKY") = false := by simpa using h3
  have b4 : (k == "DANGER") = false := by simpa using h4
  have hl : List.lookup k RISK = none := by
    simp [RISK, List.lookup, b1, b2, b3, b4]
  simp [riskOf, propertyKey, lookupIn, hl, hp]

/-- C6 fails on the code: `RISK` is an object literal, so `RISK[x]` also finds
what `Object.prototype` defines.  For the `risk_level` string constructor the
lookup gives the inherited built-in, which is truthy, so the fallback to
`RISK.MODERATE` is not taken and `color` and `label` are undefined, in the
result panel and in a history row alike. -/
theorem risk_lookup_inherited_key :
    "constructor" ∉ ["SAFE", "MODERATE", "RISKY", "DANGER"] ∧
    riskOf (some (.str "constructor")) = .ok (.native "constructor") ∧
    riskOf (some (.str "constructor")) ≠ .ok (.entry RISK_MODERATE) ∧
    (RiskValue.native "constructor").color = none ∧
    (RiskValue.native "constructor").label = none ∧
    (renderPanel (.obj [("risk_level", .str "constructor"), ("risk_score", .num 50)])).map
      (Option.map Panel.risk) = .ok (some (.native "constructor")) ∧
    (renderHistoryRow (.obj [("contract_address", .str "0xabc"),
        ("risk_level", .str "constructor"), ("risk_score", .num 50)])).map HistoryRow.risk
      = .ok (.native "constructor") := by
  have h : riskOf (some (.str "constructor")) = .ok (.native "constructor") := rfl
  refine ⟨by decide, h, ?_, rfl, rfl, rfl, rfl⟩
  rw [h]
  simp

/-! ## Flag rows -/

theorem renderFlagRow_record (f : Json) (h : f.isFlagRecord = true) :
    ∃ r, renderFlagRow f = .ok r ∧ RowShows f r := by
  cases f with
  | obj kvs =>
    simp only [Json.isFlagRecord, Bool.and_eq_true] at h
    obtain ⟨ht, hm⟩ := h
    cases hty : kvs.lookup "type" with
    | none => simp [hty] at ht
    | some t =>
      cases t with
      | str ts =>
        cases hms : kvs.lookup "msg" with
        | none => simp [hms] at hm
        | some m =>
          cases m with
          | str ms =>
            refine ⟨{ child := some (.str ms), color := lookupIn FLAG_COLORS ts }, ?_, ?_⟩
            · simp [renderFlagRow, Json.prop, hty, hms, flagColor, propertyKey, reactChild]
            · simp [RowShows, Json.prop, hty, hms, flagColor, propertyKey]
          | null => simp [hms] at hm
          | bool b => simp [hms] at hm
          | num n => simp [hms] at hm
          | arr xs => simp [hms] at hm
          | obj o => simp [hms] at hm
      | null => simp [hty] at ht
      | bool b => simp [hty] at ht
      | num n => simp [hty] at ht
      | arr xs => simp [hty] at ht
      | obj o => simp [hty] at ht
  | null => simp [Json.isFlagRecord] at h
  | bool b => simp [Json.isFlagRecord] at h
  | num n => simp [Json.isFlagRecord] at h
  | str x => simp [Json.isFlagRecord] at h
  | arr xs => simp [Json.isFlagRecord] at h

theorem renderFlagRows_records (fs : List Json) (h : ∀ f ∈ fs, f.isFlagRecord = true) :
    ∃ rows, renderFlagRows fs = .ok rows ∧ List.Forall₂ RowShows fs rows := by
  induction fs with
  | nil => exact ⟨[], rfl, List.Forall₂.nil⟩
  | cons f fs ih =>
    obtain ⟨r, hr, hs⟩ := renderFlagRow_record f (h f (List.mem_cons_self f fs))
    obtain ⟨rs, hrs, hss⟩ := ih (fun g hg => h g (List.mem_cons_of_mem f hg))
    refine ⟨r :: rs, ?_, List.Forall₂.cons hs hss⟩
    simp [renderFlagRows, hr, hrs]

theorem rowShows_children (fs : List Json) (rows : List FlagRow)
    (hall : List.Forall₂ RowShows fs rows) :
    rows.map FlagRow.child = fs.map (fun f => f.prop "msg") := by
  induction hall with
  | nil => rfl
  | cons h _ ih => simp [List.map, h.1, ih]

theorem rowShows_index (fs : List Json) (rows : List FlagRow)
    (hall : List.Forall₂ RowShows fs rows) :
    ∀ i f, fs.get? i = some f →
      ∃ r, rows.get? i = some r ∧ r.child = f.prop "msg" ∧
        flagColor (f.prop "type") = .ok r.color := by
  induction hall with
  | nil => intro i f hf; simp at hf
  | cons h _ ih =>
    intro i f hf
    cases i with
    | zero =>
      simp only [List.get?_cons_zero, Option.some.injEq] at hf
      subst hf
      exact ⟨_, rfl, h.1, h.2⟩
    | succ j =>
      simp only [List.get?_cons_succ] at hf ⊢
      exact ih j f hf

theorem renderPanel_flags (result : Json) (p : Panel) (sec : FlagSection)
    (hsec : renderFlags (result.prop "flags") = .ok sec)
    (hp : renderPanel result = .ok (some p)) : p.flags = sec := by
  unfold renderPanel at hp
  split_ifs at hp with ht
  · simp only [bind, Except.bind, pure, Except.pure, hsec] at hp
    repeat (split at hp <;> try cases hp)
    rfl
  · cases hp

/-- C10: for every result whose `flags` is a non-empty sequence of flag
records, lines 105-118 show the flag list, with as many rows as flags and in
the same order: row i has `flags[i].msg` as its child and is coloured with
`FLAG_COLORS[flags[i].type]`; these rows are the flag section of the panel
whenever the panel renders.  The result of the worked example (DANGER, 92,
one critical flag) renders the score 92, the label PERICOLO and exactly one
row, reading Honeypot detected, whose colour is #ef4444 and whose border is
drawn in that colour. -/
theorem flag_rows_follow_flags (result : Json) (fs : List Json)
    (hflags : result.prop "flags" = some (.arr fs)) (hne : fs ≠ [])
    (hrec : ∀ f ∈ fs, f.isFlagRecord = true) :
    (∃ rows, renderFlags (result.prop "flags") = .ok (.rows rows) ∧
      rows.length = fs.length ∧
      rows.map FlagRow.child = fs.map (fun f => f.prop "msg") ∧
      (∀ i f, fs.get? i = some f →
        ∃ r, rows.get? i = some r ∧ r.child = f.prop "msg" ∧
          flagColor (f.prop "type") = .ok r.color) ∧
      (∀ p, renderPanel result = .ok (some p) → p.flags = .rows rows)) ∧
    (∃ p r, renderPanel honeypotResult = .ok (some p) ∧
      p.score = some (.num 92) ∧
      p.risk.label = some "PERICOLO" ∧
      p.flags = .rows [r] ∧
      r.child = some (.str "Honeypot detected") ∧
      r.color = .own "#ef4444" ∧
      r.border = some "1px solid #ef444444") := by
  constructor
  · obtain ⟨rows, hrows, hall⟩ := renderFlagRows_records fs hrec
    have hlen : 0 < fs.length := List.length_pos.mpr hne
    have hsec : renderFlags (result.prop "flags") = .ok (.rows rows) := by
      simp [hflags, renderFlags, hlen, hrows]
    exact ⟨rows, hsec, hall.length_eq.symm, rowShows_children fs rows hall,
      rowShows_index fs rows hall, fun p hp => renderPanel_flags result p _ hsec hp⟩
  · exact ⟨_, _, rfl, rfl, rfl, rfl, rfl, rfl, rfl⟩

theorem flag_rows_follow_flags_witness :
    ∃ rows, renderFlags (honeypotResult.prop "flags") = .ok (.rows rows) ∧
      rows.length = 1 ∧
      rows.map FlagRow.child = [some (.str "Honeypot detected")] :=
  have h := (flag_rows_follow_flags honeypotResult
    [.obj [("type", .str "critical"), ("msg", .str "Honeypot detected")]]
    rfl (by simp) (by simp [Json.isFlagRecord, List.lookup])).1
  h.imp (fun _ hr => ⟨hr.1, hr.2.1, hr.2.2.1⟩)

end DegenScope
